import Mathlib

/-
Verification of the per-user collection accessor of the telegram_anki_bot
repository (src/anki_api.py, src/settings.py, src/main.py).

The accessor is a thin facade over the external anki collection library.
The repository code is embedded faithfully; the external library, which the
repository treats as an opaque collaborator, is modelled as an explicit
executable state machine over a record of collection contents.  A fault
stream lets any library call raise, so that exception paths of the Python
code are covered.
-/

namespace AnkiBot

/-! ## Filesystem model for constructor path resolution

`AnkiCollection.__init__` (src/anki_api.py lines 19-23) only touches
directories: it resolves `<BASE_USERS_PATH>/<user_id>` and calls
`mkdir(parents=True, exist_ok=True)`.  Paths are modelled as lists of
segments; the filesystem as the sets of existing directories and files. -/

structure FS where
  dirs : List (List String)
  files : List (List String)
deriving DecidableEq

/-- All prefixes of a path (including the empty path and the path itself),
the ancestors `mkdir(parents=True)` must ensure exist. -/
def pathPrefixes : List String → List (List String)
  | [] => [[]]
  | a :: rest => [] :: (pathPrefixes rest).map (a :: ·)

/-- Add the given directories to the filesystem, skipping those present. -/
def FS.addDirs (fs : FS) : List (List String) → FS
  | [] => fs
  | p :: rest =>
      (if p ∈ fs.dirs then fs
       else { fs with dirs := fs.dirs ++ [p] }).addDirs rest

/-- Model of `Path.mkdir(parents, exist_ok)`: with `exist_ok = false` an
existing directory is a `FileExistsError`; with `parents = true` all
ancestor directories are created as well. -/
def FS.mkdir (fs : FS) (p : List String) (parents exist_ok : Bool) :
    Except String FS :=
  if p ∈ fs.dirs then
    if exist_ok then .ok fs else .error "FileExistsError"
  else
    .ok (fs.addDirs (if parents then pathPrefixes p else [p]))

/-- The accessor object: `src/anki_api.py` lines 19-23.  The base storage
path (`settings.BASE_USERS_PATH`) is passed in explicitly. -/
structure AnkiCollection where
  user_id : Nat
  user_coll_dir : List String
  user_coll_path : List String
deriving DecidableEq

/-- Embedding of `AnkiCollection.__init__`: resolve
`<base_path>/<user_id>`, ensure it exists (`parents=True, exist_ok=True`),
and store `<dir>/coll.anki2`.  No file is read or written. -/
def AnkiCollection.init (basePath : List String) (user_id : Nat) (fs : FS) :
    Except String (AnkiCollection × FS) :=
  let dir := basePath ++ [toString user_id]
  match fs.mkdir dir true true with
  | .ok fs' =>
      .ok ({ user_id := user_id, user_coll_dir := dir,
             user_coll_path := dir ++ ["coll.anki2"] }, fs')
  | .error e => .error e

/-! ## Model of the external anki collection library

The spec treats the library as an opaque collaborator exposing open, close,
deck create/list/select/current, note-type lookup, note insertion, card
search, scheduler queries and sync.  Its observable state is modelled as a
record of collection contents with a fresh-id counter. -/

/-- Deck record: library-assigned id and a name. -/
structure DeckRec where
  id : Nat
  name : String
deriving DecidableEq, Repr

/-- Note type (model): named field-and-template schema. -/
structure NotetypeRec where
  id : Nat
  name : String
  fieldNames : List String
  templateCount : Nat
deriving DecidableEq, Repr

/-- Note record: ordered field values under a note type. -/
structure NoteRec where
  id : Nat
  mid : Nat
  fields : List String
deriving DecidableEq, Repr

/-- Scheduling queue a card currently sits in. -/
inductive CardQueue where
  | newQ
  | learnQ
  | reviewQ
deriving DecidableEq, Repr

/-- Card record: derived from a note, placed in a deck, with a template
ordinal and a queue state. -/
structure CardRec where
  id : Nat
  nid : Nat
  did : Nat
  ord : Nat
  queue : CardQueue
deriving DecidableEq, Repr

/-- Observable contents of one on-disk collection.  `nextId` is the source
of library-assigned identifiers; the library reserves id 1 for the default
deck, so assigned ids are always at least 2. -/
structure Coll where
  decks : List DeckRec
  notetypes : List NotetypeRec
  notes : List NoteRec
  cards : List CardRec
  currentDeck : Nat
  nextId : Nat
deriving DecidableEq, Repr

/-- Well-formedness maintained by the library: ids are library-assigned
(positive, below the counter, with 1 reserved for the default deck),
distinct per kind, and every card points at an existing note. -/
def Coll.wf (c : Coll) : Prop :=
  2 ≤ c.nextId ∧
  (∀ d ∈ c.decks, 0 < d.id ∧ d.id < c.nextId) ∧
  (∀ m ∈ c.notetypes, 0 < m.id ∧ m.id < c.nextId) ∧
  (∀ n ∈ c.notes, n.id < c.nextId) ∧
  (∀ card ∈ c.cards, card.id < c.nextId) ∧
  c.decks.Pairwise (fun a b => a.id ≠ b.id) ∧
  c.notetypes.Pairwise (fun a b => a.id ≠ b.id) ∧
  c.notes.Pairwise (fun a b => a.id ≠ b.id) ∧
  c.cards.Pairwise (fun a b => a.id ≠ b.id) ∧
  (∀ card ∈ c.cards, ∃ n ∈ c.notes, n.id = card.nid)

instance (c : Coll) : Decidable c.wf := by
  unfold Coll.wf; infer_instance

/-! ### Library call results and fault injection

A Python call either returns a value or raises.  Each library call consults
a fault stream: a leading `true` makes that call raise a library error, so
theorems can quantify over every exception pattern. -/

/-- Outcome of a Python call: a value, or a raised exception. -/
inductive PyResult (α : Type) where
  | ok (a : α)
  | raised (e : String)
deriving DecidableEq, Repr

/-- Open handle onto a collection, as held inside one accessor operation:
the collection contents, the remaining fault stream, and whether the
handle is still open. -/
structure Handle where
  coll : Coll
  faults : List Bool
  isOpen : Bool
deriving DecidableEq, Repr

/-- Computation running against an open handle, Python-style: it may
return a value or raise, and threads the handle state. -/
def LibM (α : Type) : Type := Handle → PyResult α × Handle

/-- Sequencing of library computations: a raised exception propagates,
skipping the rest of the body (Python semantics). -/
def bindM {α β : Type} (m : LibM α) (f : α → LibM β) : LibM β := fun h =>
  match m h with
  | (.ok a, h1) => f a h1
  | (.raised e, h1) => (.raised e, h1)

/-- Pure step that cannot raise. -/
def pureM {α : Type} (a : α) : LibM α := fun h => (.ok a, h)

/-- Raise an exception (assertion failures, index errors). -/
def raiseM {α : Type} (e : String) : LibM α := fun h => (.raised e, h)

/-- One call into the external library: if the next fault-stream entry is
`true` the call raises a library error, otherwise it performs its
modelled effect on the collection contents. -/
def libCall {α : Type} (f : Coll → α × Coll) : LibM α := fun h =>
  match h.faults with
  | true :: rest => (.raised "LibraryError", { h with faults := rest })
  | false :: rest =>
      let (a, c) := f h.coll
      (.ok a, { h with coll := c, faults := rest })
  | [] =>
      let (a, c) := f h.coll
      (.ok a, { h with coll := c })

/-- Embedding of the `collection()` context manager (src/anki_api.py lines
33-39): open a handle, run the body, and close the handle in a `finally`
block, so the close happens on the success path and on every raise. -/
def withCollection {α : Type} (c : Coll) (faults : List Bool)
    (body : LibM α) : PyResult α × Handle :=
  let h : Handle := { coll := c, faults := faults, isOpen := true }
  let r := body h
  (r.1, { r.2 with isOpen := false })

/-! ### Modelled library primitives -/

/-- Modelled from the spec: deck creation assigns a fresh id and records
the named deck (library surface deck-create of section 6). -/
def addDeck (c : Coll) (name : String) : Nat × Coll :=
  (c.nextId,
   { c with decks := c.decks ++ [{ id := c.nextId, name := name }],
            nextId := c.nextId + 1 })

/-- Modelled from the spec: a deck is empty when no card lives in it. -/
def deckIsEmpty (c : Coll) (did : Nat) : Bool :=
  (c.cards.filter (fun card => card.did = did)).isEmpty

/-- Modelled from the spec: deck listing returns (name, id) records,
optionally skipping the default deck (id 1) when it is empty. -/
def allDeckNamesAndIds (c : Coll) (skipDefault : Bool) : List DeckRec :=
  if skipDefault then
    c.decks.filter (fun d => ¬ (d.id = 1 ∧ deckIsEmpty c 1))
  else c.decks

/-- Modelled from the spec: note-type listing (name and id pairs). -/
def allModelNamesAndIds (c : Coll) : List NotetypeRec := c.notetypes

/-- Modelled from the spec: note-type lookup by id; absent ids give
`none` (the Python call returns None). -/
def modelsGet (c : Coll) (mid : Nat) : Option NotetypeRec :=
  c.notetypes.find? (fun m => m.id = mid)

/-- Modelled from the spec: note construction under a note type, with a
fresh library-assigned id and blank fields sized by the schema. -/
def newNote (c : Coll) (model : NotetypeRec) : NoteRec × Coll :=
  ({ id := c.nextId, mid := model.id,
     fields := List.replicate model.fieldNames.length "" },
   { c with nextId := c.nextId + 1 })

/-- Modelled from the spec: note insertion generates one card per template
of the note type, in template order, each with a fresh id, in the given
deck, entering the new queue. -/
def addNote (c : Coll) (note : NoteRec) (did : Nat) : Unit × Coll :=
  let tc := ((modelsGet c note.mid).map NotetypeRec.templateCount).getD 1
  let newCards := (List.range tc).map (fun ord =>
    { id := c.nextId + ord, nid := note.id, did := did,
      ord := ord, queue := CardQueue.newQ : CardRec })
  ((), { c with notes := c.notes ++ [note],
                cards := c.cards ++ newCards,
                nextId := c.nextId + tc })

/-- Modelled from the spec: post-insert indexing; no observable change to
the collection contents at this level. -/
def afterNoteUpdates (c : Coll) (_nids : List Nat) : Unit × Coll := ((), c)

/-- Modelled from the spec: the cards generated from a note, in template
order (Python `note.cards()`). -/
def noteCards (c : Coll) (nid : Nat) : List CardRec :=
  c.cards.filter (fun card => card.nid = nid)

/-- Modelled from the spec: card search; the empty query matches every
card, a non-empty query matches cards whose parent note has a field equal
to the query. -/
def searchCards (c : Coll) (query : String) : List Nat :=
  if query = "" then c.cards.map CardRec.id
  else
    (c.cards.filter (fun card =>
      c.notes.any (fun n => n.id = card.nid ∧ n.fields.contains query))).map
      CardRec.id

/-- Modelled from the spec: the scheduler hands out the next due card,
or None when the queue is empty. -/
def schedGetCard (c : Coll) : Option CardRec := c.cards.head?

/-- Modelled from the spec: note lookup behind a card (Python
`card.note()`). -/
def noteOfCard (c : Coll) (card : CardRec) : Option NoteRec :=
  c.notes.find? (fun n => n.id = card.nid)

/-- Backend reply to `get_queued_cards`: counts per queue state, carried
in named fields (the repository chooses the tuple order when projecting). -/
structure QueuedCardsInfo where
  new_count : Nat
  learning_count : Nat
  review_count : Nat
deriving DecidableEq, Repr

/-- Modelled from the spec: queued-card counts per queue state, with no
fetch limit and not restricted to intraday learning. -/
def getQueuedCards (c : Coll) : QueuedCardsInfo :=
  { new_count := (c.cards.filter (fun card => card.queue = CardQueue.newQ)).length,
    learning_count := (c.cards.filter (fun card => card.queue = CardQueue.learnQ)).length,
    review_count := (c.cards.filter (fun card => card.queue = CardQueue.reviewQ)).length }

/-- Modelled from the spec: the active deck as a record (Python
`decks.current()` returns a dict; absent current falls back to none
here). -/
def decksCurrent (c : Coll) : Option DeckRec :=
  c.decks.find? (fun d => d.id = c.currentDeck)

/-- Modelled from the spec: selecting the active deck for subsequent
scheduling calls. -/
def decksSelect (c : Coll) (did : Nat) : Unit × Coll :=
  ((), { c with currentDeck := did })

/-- Modelled from the spec: the scheduler interval, in days, that pressing
the given ease button would set for the card. -/
def schedNextIvl (card : CardRec) (ease : Nat) : Nat :=
  match card.queue with
  | CardQueue.newQ => if ease ≤ 2 then 0 else ease - 2
  | CardQueue.learnQ => if ease = 1 then 0 else ease - 1
  | CardQueue.reviewQ => ease * (card.ord + 1)

/-- Modelled from the spec: the human-readable interval description for
one ease button (Python `coll.sched.nextIvlStr`), such as "<10m" or "3d". -/
def nextIvlStr (card : CardRec) (ease : Nat) : String :=
  let n := schedNextIvl card ease
  if n = 0 then "<10m" else toString n ++ "d"

/-- Sync authentication token handed back by the library. -/
structure SyncAuth where
  hkey : String
  endpoint : Option String
deriving DecidableEq, Repr

/-- Result of the sync step, carrying a possibly updated endpoint. -/
structure SyncOut where
  new_endpoint : Option String
deriving DecidableEq, Repr

/-- Modelled from the spec: remote authentication; credentials are handed
to the library per invocation and not persisted. -/
def syncLogin (c : Coll) (username _password : String) : SyncAuth × Coll :=
  ({ hkey := username, endpoint := none }, c)

/-- Modelled from the spec: the sync handshake; the wire protocol is
opaque, only the returned endpoint is observable here. -/
def syncCollectionStep (c : Coll) (_auth : SyncAuth) : SyncOut × Coll :=
  ({ new_endpoint := none }, c)

/-- Modelled from the spec: full download replaces the local state
wholesale; opaque at this level. -/
def fullDownload (c : Coll) (_auth : SyncAuth) : Unit × Coll := ((), c)

/-- Modelled from the spec: full upload pushes the local state wholesale;
opaque at this level. -/
def fullUpload (c : Coll) (_auth : SyncAuth) : Unit × Coll := ((), c)

/-- Modelled from the spec: closing the collection ahead of a full sync;
no observable content change. -/
def closeForFullSync (c : Coll) : Unit × Coll := ((), c)

/-! ## Model of Python str.strip, used by get_next_time_buttons -/

/-- Whitespace test matching Python str.strip default. -/
def pyIsSpace (c : Char) : Bool :=
  c = ' ' ∨ c = '\t' ∨ c = '\n' ∨ c = '\r'

/-- Model of Python `str.strip()`: drop leading and trailing whitespace. -/
def pyStrip (s : String) : String :=
  ⟨(((s.data.dropWhile pyIsSpace).reverse.dropWhile pyIsSpace).reverse)⟩

/-! ## Embedded accessor operations (src/anki_api.py lines 25-200)

Each operation takes the on-disk collection contents and a fault stream;
the updated contents live in the returned handle (the close flushes them
back to disk). -/

/-- Embedding of `get_collection` (lines 25-31): open the collection at
the stored path and return the live handle to the caller, without
closing it. -/
def get_collection (c : Coll) (faults : List Bool) : Handle :=
  { coll := c, faults := faults, isOpen := true }

/-- Embedding of `create_deck` (lines 41-54): new blank deck, set its
name, add it, return the assigned id. -/
def create_deck (c : Coll) (faults : List Bool) (deck_name : String) :
    PyResult Nat × Handle :=
  withCollection c faults (
    bindM (libCall (fun c => (({ id := 0, name := "" } : DeckRec), c)))
      (fun deck0 =>
    let deck := { deck0 with name := deck_name }
    bindM (libCall (fun c => addDeck c deck.name)) (fun resId =>
    pureM resId)))

/-- Embedding of `get_default_model` (lines 56-72): list note types, take
the id of the first one named Basic, `assert model_id` (a Python
truthiness check: both a missing id and an id of 0 fail the assertion),
then fetch that note type. -/
def get_default_model (c : Coll) (faults : List Bool) :
    PyResult (Option NotetypeRec) × Handle :=
  withCollection c faults (
    bindM (libCall (fun c => (allModelNamesAndIds c, c))) (fun models =>
    let model_id := (models.find? (fun m => m.name = "Basic")).map
      NotetypeRec.id
    match model_id with
    | none => raiseM "AssertionError: Can not find basic model"
    | some 0 => raiseM "AssertionError: Can not find basic model"
    | some mid =>
        bindM (libCall (fun c => (modelsGet c mid, c))) (fun basic_model =>
        pureM basic_model)))

/-- Embedding of `add_card` (lines 74-97): build a note under the model,
overwrite its fields with [front, back], insert it into the deck, run
post-insert indexing, and return the id of the first generated card
(Python indexing `[0]` raises when no card was generated). -/
def add_card (c : Coll) (faults : List Bool) (deck_id : Nat)
    (model : NotetypeRec) (front back : String) : PyResult Nat × Handle :=
  withCollection c faults (
    bindM (libCall (fun c => newNote c model)) (fun note0 =>
    let new_note := { note0 with fields := [front, back] }
    bindM (libCall (fun c => addNote c new_note deck_id)) (fun _ =>
    bindM (libCall (fun c => afterNoteUpdates c [new_note.id])) (fun _ =>
    bindM (libCall (fun c => (noteCards c new_note.id, c))) (fun cs =>
    match cs.head? with
    | some card => pureM card.id
    | none => raiseM "IndexError: list index out of range")))))

/-- Embedding of `get_decks` (lines 100-115): list decks as (name, id)
pairs, skipping the empty default deck when asked. -/
def get_decks (c : Coll) (faults : List Bool) (skip_default : Bool := true) :
    PyResult (List (String × Nat)) × Handle :=
  withCollection c faults (
    bindM (libCall (fun c => (allDeckNamesAndIds c skip_default, c)))
      (fun ds =>
    pureM (ds.map (fun d => (d.name, d.id)))))

/-- Embedding of `get_current_deck` (lines 117-124): the active deck
record. -/
def get_current_deck (c : Coll) (faults : List Bool) :
    PyResult (Option DeckRec) × Handle :=
  withCollection c faults (
    bindM (libCall (fun c => (decksCurrent c, c))) (fun d =>
    pureM d))

/-- Embedding of `set_deck` (lines 127-134): select the active deck. -/
def set_deck (c : Coll) (faults : List Bool) (deck_id : Nat) :
    PyResult Unit × Handle :=
  withCollection c faults (
    bindM (libCall (fun c => decksSelect c deck_id)) (fun u =>
    pureM u))

/-- Embedding of `get_queues_count` (lines 136-146): ask the backend for
queued-card counts and project them in the order (new, review,
learning). -/
def get_queues_count (c : Coll) (faults : List Bool) :
    PyResult (Nat × Nat × Nat) × Handle :=
  withCollection c faults (
    bindM (libCall (fun c => (getQueuedCards c, c))) (fun res =>
    pureM (res.new_count, res.review_count, res.learning_count)))

/-- Embedding of `find_cards` (lines 148-158): search and return the card
ids as a list; the declared Python return type also admits None. -/
def find_cards (c : Coll) (faults : List Bool) (query : String := "") :
    PyResult (Option (List Nat)) × Handle :=
  withCollection c faults (
    bindM (libCall (fun c => (searchCards c query, c))) (fun cs =>
    pureM (some cs)))

/-- Embedding of `get_card_and_note` (lines 160-168): next due card from
the scheduler, paired with `card.note()`; a None card makes the attribute
access raise. -/
def get_card_and_note (c : Coll) (faults : List Bool) :
    PyResult (CardRec × NoteRec) × Handle :=
  withCollection c faults (
    bindM (libCall (fun c => (schedGetCard c, c))) (fun cardOpt =>
    match cardOpt with
    | none => raiseM "AttributeError: NoneType has no attribute note"
    | some card =>
        bindM (libCall (fun c => (noteOfCard c card, c))) (fun noteOpt =>
        match noteOpt with
        | some note => pureM (card, note)
        | none => raiseM "NotFoundError")))

/-- Embedding of `get_next_time_buttons` (lines 170-183): the loop over
ease 1 to 4, stripping each interval string, unrolled. -/
def get_next_time_buttons (c : Coll) (faults : List Bool) (card : CardRec) :
    PyResult (List String) × Handle :=
  withCollection c faults (
    bindM (libCall (fun c => (nextIvlStr card 1, c))) (fun s1 =>
    bindM (libCall (fun c => (nextIvlStr card 2, c))) (fun s2 =>
    bindM (libCall (fun c => (nextIvlStr card 3, c))) (fun s3 =>
    bindM (libCall (fun c => (nextIvlStr card 4, c))) (fun s4 =>
    pureM [pyStrip s1, pyStrip s2, pyStrip s3, pyStrip s4])))))

/-- Embedding of `sync_collection` (lines 185-200): login, close for full
sync, sync handshake, update the endpoint, full download, full upload. -/
def sync_collection (c : Coll) (faults : List Bool)
    (username password : String) : PyResult Unit × Handle :=
  withCollection c faults (
    bindM (libCall (fun c => syncLogin c username password)) (fun auth =>
    bindM (libCall (fun c => closeForFullSync c)) (fun _ =>
    bindM (libCall (fun c => syncCollectionStep c auth)) (fun res =>
    let auth2 := { auth with endpoint := res.new_endpoint }
    bindM (libCall (fun c => fullDownload c auth2)) (fun _ =>
    bindM (libCall (fun c => fullUpload c auth2)) (fun _ =>
    pureM ()))))))

/-! ## Derived state descriptions and concrete sample collections -/

/-- Cards generated for a fresh note by `addNote`: one card per template
ordinal, ids starting right after the note id. -/
def newCardsOf (c : Coll) (deck_id : Nat) (tc : Nat) : List CardRec :=
  (List.range tc).map (fun ord =>
    { id := c.nextId + 1 + ord, nid := c.nextId, did := deck_id,
      ord := ord, queue := CardQueue.newQ })

/-- Collection contents after `add_card` inserts a note with fields
[F, B] under the given note type into the given deck. -/
def collAfterAdd (c : Coll) (deck_id : Nat) (model : NotetypeRec)
    (F B : String) : Coll :=
  { c with
    notes := c.notes ++ [{ id := c.nextId, mid := model.id, fields := [F, B] }],
    cards := c.cards ++ newCardsOf c deck_id model.templateCount,
    nextId := c.nextId + 1 + model.templateCount }

/-- Sample note type: the built-in Basic type with two fields and one
template. -/
def demoNotetype : NotetypeRec :=
  { id := 2, name := "Basic", fieldNames := ["Front", "Back"],
    templateCount := 1 }

/-- Sample freshly created collection: default deck and the Basic type. -/
def demoColl : Coll :=
  { decks := [{ id := 1, name := "Default" }], notetypes := [demoNotetype],
    notes := [], cards := [], currentDeck := 1, nextId := 3 }

/-- Sample note living in `demoColl2`. -/
def demoNote : NoteRec := { id := 3, mid := 2, fields := ["hello", "world"] }

/-- Sample new card generated from `demoNote`. -/
def demoCard : CardRec :=
  { id := 4, nid := 3, did := 1, ord := 0, queue := CardQueue.newQ }

/-- Sample seeded collection: one note with one new card. -/
def demoColl2 : Coll :=
  { decks := [{ id := 1, name := "Default" }], notetypes := [demoNotetype],
    notes := [demoNote], cards := [demoCard], currentDeck := 1, nextId := 5 }

/-! ## Helper lemmas -/

theorem find?_key_eq_of_mem_distinct {α : Type} (key : α → Nat) {l : List α}
    (hp : l.Pairwise (fun a b => key a ≠ key b)) {m : α} (hm : m ∈ l) :
    l.find? (fun x => key x = key m) = some m := by
  induction l with
  | nil => cases hm
  | cons a rest ih =>
      rcases List.mem_cons.mp hm with rfl | hmr
      · exact List.find?_cons_of_pos _ (by simp)
      · have hpc := List.pairwise_cons.mp hp
        have hne : key a ≠ key m := hpc.1 m hmr
        rw [List.find?_cons_of_neg _ (by simp [hne])]
        exact ih hpc.2 hmr

theorem mem_dropWhile_of_mem {α : Type} {p : α → Bool} {l : List α} {a : α}
    (ha : a ∈ l) (hpa : p a = false) : a ∈ l.dropWhile p := by
  induction l with
  | nil => cases ha
  | cons b rest ih =>
      rw [List.dropWhile_cons]
      by_cases hb : p b = true
      · rw [if_pos hb]
        rcases List.mem_cons.mp ha with rfl | har
        · rw [hpa] at hb; cases hb
        · exact ih har
      · rw [if_neg hb]; exact ha

theorem pyStrip_ne_empty {s : String} {a : Char} (ha : a ∈ s.data)
    (hpa : pyIsSpace a = false) : pyStrip s ≠ "" := by
  intro hempty
  have h1 : a ∈ s.data.dropWhile pyIsSpace := mem_dropWhile_of_mem ha hpa
  have h2 : a ∈ (s.data.dropWhile pyIsSpace).reverse := List.mem_reverse.mpr h1
  have h3 : a ∈ (s.data.dropWhile pyIsSpace).reverse.dropWhile pyIsSpace :=
    mem_dropWhile_of_mem h2 hpa
  have h4 : a ∈ ((s.data.dropWhile pyIsSpace).reverse.dropWhile
      pyIsSpace).reverse := List.mem_reverse.mpr h3
  have hdata : ((s.data.dropWhile pyIsSpace).reverse.dropWhile
      pyIsSpace).reverse = ([] : List Char) := congrArg String.data hempty
  rw [hdata] at h4
  cases h4

theorem nextIvlStr_strip_ne_empty (card : CardRec) (ease : Nat) :
    pyStrip (nextIvlStr card ease) ≠ "" := by
  unfold nextIvlStr
  by_cases h : schedNextIvl card ease = 0
  · rw [if_pos h]; decide
  · rw [if_neg h]
    apply pyStrip_ne_empty (a := 'd')
    · show 'd' ∈ (toString (schedNextIvl card ease) ++ "d").data
      have hd : (toString (schedNextIvl card ease) ++ "d").data =
          (toString (schedNextIvl card ease)).data ++ ['d'] := rfl
      rw [hd]
      exact List.mem_append_right _ (List.mem_singleton.mpr rfl)
    · rfl

theorem FS.addDirs_files (fs : FS) (ps : List (List String)) :
    (fs.addDirs ps).files = fs.files := by
  induction ps generalizing fs with
  | nil => rfl
  | cons p rest ih =>
      by_cases h : p ∈ fs.dirs
      · simp only [FS.addDirs, if_pos h]; exact ih fs
      · simp only [FS.addDirs, if_neg h]; exact ih _

theorem FS.mem_dirs_addDirs (fs : FS) (ps : List (List String))
    (q : List String) (h : q ∈ fs.dirs) : q ∈ (fs.addDirs ps).dirs := by
  induction ps generalizing fs with
  | nil => exact h
  | cons p rest ih =>
      by_cases hp : p ∈ fs.dirs
      · simp only [FS.addDirs, if_pos hp]; exact ih fs h
      · simp only [FS.addDirs, if_neg hp]
        exact ih _ (List.mem_append_left _ h)

theorem FS.mem_addDirs_of_mem (fs : FS) (ps : List (List String))
    (q : List String) (h : q ∈ ps) : q ∈ (fs.addDirs ps).dirs := by
  induction ps generalizing fs with
  | nil => cases h
  | cons p rest ih =>
      rcases List.mem_cons.mp h with rfl | hq
      · by_cases hp : q ∈ fs.dirs
        · simp only [FS.addDirs, if_pos hp]
          exact FS.mem_dirs_addDirs fs rest q hp
        · simp only [FS.addDirs, if_neg hp]
          exact FS.mem_dirs_addDirs _ rest q
            (List.mem_append_right _ (List.mem_singleton.mpr rfl))
      · by_cases hp : p ∈ fs.dirs
        · simp only [FS.addDirs, if_pos hp]; exact ih fs hq
        · simp only [FS.addDirs, if_neg hp]; exact ih _ hq

theorem mem_pathPrefixes_self (p : List String) : p ∈ pathPrefixes p := by
  induction p with
  | nil => simp [pathPrefixes]
  | cons a rest ih =>
      simp only [pathPrefixes, List.mem_cons, List.mem_map]
      exact Or.inr ⟨rest, ih, rfl⟩

theorem FS.mkdir_parents_exist_ok (fs : FS) (p : List String) :
    ∃ fs2, fs.mkdir p true true = .ok fs2 ∧
      p ∈ fs2.dirs ∧
      (p ∉ fs.dirs → ∀ q ∈ pathPrefixes p, q ∈ fs2.dirs) ∧
      fs2.files = fs.files ∧
      fs2.mkdir p true true = .ok fs2 := by
  by_cases h : p ∈ fs.dirs
  · exact ⟨fs, by simp [FS.mkdir, h], h, fun hc => absurd h hc, rfl,
      by simp [FS.mkdir, h]⟩
  · refine ⟨fs.addDirs (pathPrefixes p), by simp [FS.mkdir, h], ?_, ?_, ?_, ?_⟩
    · exact FS.mem_addDirs_of_mem fs _ p (mem_pathPrefixes_self p)
    · intro _ q hq; exact FS.mem_addDirs_of_mem fs _ q hq
    · exact FS.addDirs_files fs _
    · have hp : p ∈ (fs.addDirs (pathPrefixes p)).dirs :=
        FS.mem_addDirs_of_mem fs _ p (mem_pathPrefixes_self p)
      simp [FS.mkdir, hp]

/-! ## Claim theorems -/

/-- C1: for every public accessor operation (create deck, get default
model, add card, list decks, get current deck, set deck, get queue counts,
find cards, get next card and note, get interval preview strings,
synchronize), the collection handle opened at the start of the call is
closed before the call returns, on the success path and under every fault
pattern that makes the body raise. -/
theorem accessor_handle_always_closed
    (c : Coll) (faults : List Bool) (deck_name : String) (deck_id : Nat)
    (model : NotetypeRec) (front back : String) (skip : Bool)
    (query username password : String) (card : CardRec) :
    (create_deck c faults deck_name).2.isOpen = false ∧
    (get_default_model c faults).2.isOpen = false ∧
    (add_card c faults deck_id model front back).2.isOpen = false ∧
    (get_decks c faults skip).2.isOpen = false ∧
    (get_current_deck c faults).2.isOpen = false ∧
    (set_deck c faults deck_id).2.isOpen = false ∧
    (get_queues_count c faults).2.isOpen = false ∧
    (find_cards c faults query).2.isOpen = false ∧
    (get_card_and_note c faults).2.isOpen = false ∧
    (get_next_time_buttons c faults card).2.isOpen = false ∧
    (sync_collection c faults username password).2.isOpen = false :=
  ⟨rfl, rfl, rfl, rfl, rfl, rfl, rfl, rfl, rfl, rfl, rfl⟩

/-- C10: `get_collection` opens and returns the live handle onto the
collection without closing it: after the call the handle is still open,
and closing it is left to the caller. -/
theorem get_collection_leaves_handle_open (c : Coll) (faults : List Bool) :
    (get_collection c faults).isOpen = true ∧
    (get_collection c faults).coll = c :=
  ⟨rfl, rfl⟩

/-- C2: constructing the accessor resolves the collection path to
`<base_path>/<user_id>/coll.anki2`, ensures the directory exists (creating
intermediate directories when it was absent), touches no file, and a
second construction yields the same resolved path without error. -/
theorem accessor_construction_spec (basePath : List String) (uid : Nat)
    (fs : FS) :
    ∃ acc fs2,
      AnkiCollection.init basePath uid fs = .ok (acc, fs2) ∧
      acc.user_coll_dir = basePath ++ [toString uid] ∧
      acc.user_coll_path = basePath ++ [toString uid, "coll.anki2"] ∧
      acc.user_id = uid ∧
      acc.user_coll_dir ∈ fs2.dirs ∧
      ((basePath ++ [toString uid]) ∉ fs.dirs →
        ∀ q ∈ pathPrefixes (basePath ++ [toString uid]), q ∈ fs2.dirs) ∧
      fs2.files = fs.files ∧
      AnkiCollection.init basePath uid fs2 = .ok (acc, fs2) := by
  obtain ⟨fs2, hmk, hmem, hpref, hfiles, hmk2⟩ :=
    FS.mkdir_parents_exist_ok fs (basePath ++ [toString uid])
  refine ⟨{ user_id := uid, user_coll_dir := basePath ++ [toString uid],
            user_coll_path := (basePath ++ [toString uid]) ++ ["coll.anki2"] },
          fs2, ?_, rfl, ?_, rfl, hmem, hpref, hfiles, ?_⟩
  · simp only [AnkiCollection.init]
    rw [hmk]
  · simp
  · simp only [AnkiCollection.init]
    rw [hmk2]

/-- C2 witness: concrete construction for user 42 under base path
["users"] on an empty filesystem. -/
theorem accessor_construction_spec_witness :
    ∃ acc fs2,
      AnkiCollection.init ["users"] 42 { dirs := [], files := [] } =
        .ok (acc, fs2) ∧
      acc.user_coll_dir = ["users"] ++ [toString 42] ∧
      acc.user_coll_path = ["users"] ++ [toString 42, "coll.anki2"] ∧
      acc.user_id = 42 ∧
      acc.user_coll_dir ∈ fs2.dirs ∧
      ((["users"] ++ [toString 42]) ∉
          ({ dirs := [], files := [] } : FS).dirs →
        ∀ q ∈ pathPrefixes (["users"] ++ [toString 42]), q ∈ fs2.dirs) ∧
      fs2.files = ({ dirs := [], files := [] } : FS).files ∧
      AnkiCollection.init ["users"] 42 fs2 = .ok (acc, fs2) :=
  accessor_construction_spec ["users"] 42 { dirs := [], files := [] }

/-- C4: after create deck(X) returns id D, list decks() includes the pair
(X, D) exactly once. -/
theorem create_deck_then_listed_once (c : Coll) (h : c.wf) (X : String) :
    ∃ D h1, create_deck c [] X = (.ok D, h1) ∧
      ∃ l h2, get_decks h1.coll [] true = (.ok l, h2) ∧
        l.count (X, D) = 1 := by
  obtain ⟨h2le, hdecks, -⟩ := h
  refine ⟨c.nextId,
    { coll := { c with decks := c.decks ++ [{ id := c.nextId, name := X }],
                       nextId := c.nextId + 1 },
      faults := [], isOpen := false }, rfl, _, _, rfl, ?_⟩
  have hne1 : c.nextId ≠ 1 := by omega
  simp only [allDeckNamesAndIds, if_true, List.filter_append, List.map_append,
    List.count_append]
  have h0 : ∀ (p : DeckRec → Bool),
      List.count (X, c.nextId)
        (List.map (fun d => (d.name, d.id)) (List.filter p c.decks)) = 0 := by
    intro p
    apply List.count_eq_zero.mpr
    intro hmem
    rw [List.mem_map] at hmem
    obtain ⟨d, hdf, hfd⟩ := hmem
    have hdmem : d ∈ c.decks := List.mem_of_mem_filter hdf
    have hid : d.id = c.nextId := ((Prod.mk.injEq _ _ _ _).mp hfd).2
    have := (hdecks d hdmem).2
    omega
  rw [h0]
  simp [hne1]

/-- C4 witness: creating deck X in the sample fresh collection lists
(X, D) exactly once afterwards. -/
theorem create_deck_then_listed_once_witness :
    ∃ D h1, create_deck demoColl [] "X" = (.ok D, h1) ∧
      ∃ l h2, get_decks h1.coll [] true = (.ok l, h2) ∧
        l.count ("X", D) = 1 :=
  create_deck_then_listed_once demoColl (by decide) "X"

/-- C5: get default model() returns the schema of the first note type
named Basic when one exists, and raises (through the assertion) exactly
when no note type named Basic is present. -/
theorem get_default_model_spec (c : Coll) (h : c.wf) :
    ((∃ m ∈ c.notetypes, m.name = "Basic") →
       ∃ m0 h1, get_default_model c [] = (.ok (some m0), h1) ∧
         m0.name = "Basic" ∧ m0 ∈ c.notetypes ∧
         c.notetypes.find? (fun m => m.name = "Basic") = some m0) ∧
    ((∀ m ∈ c.notetypes, m.name ≠ "Basic") →
       ∃ e h1, get_default_model c [] = (.raised e, h1)) := by
  constructor
  · rintro ⟨m, hm, hname⟩
    have hsome : (c.notetypes.find? (fun m => m.name = "Basic")).isSome := by
      rw [List.find?_isSome]
      exact ⟨m, hm, by simp [hname]⟩
    obtain ⟨m0, hfind⟩ := Option.isSome_iff_exists.mp hsome
    have hname0 : m0.name = "Basic" := by
      have := List.find?_some hfind
      simpa using this
    have hmem0 : m0 ∈ c.notetypes := List.mem_of_find?_eq_some hfind
    have hpos : 0 < m0.id := (h.2.2.1 m0 hmem0).1
    obtain ⟨k, hk⟩ : ∃ k, m0.id = Nat.succ k := ⟨m0.id - 1, by omega⟩
    have hdist := h.2.2.2.2.2.2.1
    have hget : modelsGet c (Nat.succ k) = some m0 := by
      rw [modelsGet, ← hk]
      exact find?_key_eq_of_mem_distinct NotetypeRec.id hdist hmem0
    refine ⟨m0, { coll := c, faults := [], isOpen := false }, ?_, hname0,
      hmem0, hfind⟩
    simp only [get_default_model, withCollection, bindM, libCall, pureM,
      raiseM, allModelNamesAndIds]
    rw [hfind]
    rw [show Option.map NotetypeRec.id (some m0) = some m0.id from rfl]
    rw [hk]
    simp [hget, bindM, libCall, pureM]
  · intro hnone
    have hfind : c.notetypes.find? (fun m => m.name = "Basic") = none := by
      rw [List.find?_eq_none]
      intro x hx
      simp [hnone x hx]
    refine ⟨"AssertionError: Can not find basic model",
      { coll := c, faults := [], isOpen := false }, ?_⟩
    simp only [get_default_model, withCollection, bindM, libCall, pureM,
      raiseM, allModelNamesAndIds]
    rw [hfind]
    rfl

/-- C5 witness: on the sample collection, which holds the Basic type, get
default model() returns it. -/
theorem get_default_model_spec_witness :
    ∃ m0 h1, get_default_model demoColl [] = (.ok (some m0), h1) ∧
      m0.name = "Basic" ∧ m0 ∈ demoColl.notetypes ∧
      demoColl.notetypes.find? (fun m => m.name = "Basic") = some m0 :=
  (get_default_model_spec demoColl (by decide)).1
    ⟨demoNotetype, by decide, rfl⟩

/-- C6: when the queue is non-empty, get next card and note returns the
next due card paired with the parent note of that same card. -/
theorem get_card_and_note_spec (c : Coll) (h : c.wf) (hne : c.cards ≠ []) :
    ∃ card note h1, get_card_and_note c [] = (.ok (card, note), h1) ∧
      schedGetCard c = some card ∧ card ∈ c.cards ∧
      note ∈ c.notes ∧ note.id = card.nid := by
  obtain ⟨card0, rest, hcards⟩ := List.exists_cons_of_ne_nil hne
  have hhead : schedGetCard c = some card0 := by
    rw [schedGetCard, hcards]; rfl
  have hcmem : card0 ∈ c.cards := by
    rw [hcards]; exact List.mem_cons_self _ _
  obtain ⟨note0, hnmem, hnid⟩ := h.2.2.2.2.2.2.2.2.2 card0 hcmem
  have hnotesdist := h.2.2.2.2.2.2.2.1
  have hfind : noteOfCard c card0 = some note0 := by
    rw [noteOfCard, ← hnid]
    exact find?_key_eq_of_mem_distinct NoteRec.id hnotesdist hnmem
  refine ⟨card0, note0, { coll := c, faults := [], isOpen := false },
    ?_, hhead, hcmem, hnmem, hnid⟩
  simp only [get_card_and_note, withCollection, bindM, libCall, pureM, raiseM]
  rw [hhead]
  simp [hfind, bindM, libCall, pureM]

/-- C6 witness: the sample seeded collection hands out its one new card
together with its parent note. -/
theorem get_card_and_note_spec_witness :
    ∃ card note h1, get_card_and_note demoColl2 [] = (.ok (card, note), h1) ∧
      schedGetCard demoColl2 = some card ∧ card ∈ demoColl2.cards ∧
      note ∈ demoColl2.notes ∧ note.id = card.nid :=
  get_card_and_note_spec demoColl2 (by decide) (by decide)

/-- C7: get interval preview strings(card) returns exactly 4 strings,
ordered by ease level 1 through 4, each non-empty. -/
theorem get_next_time_buttons_spec (c : Coll) (card : CardRec) :
    ∃ h1, get_next_time_buttons c [] card =
      (.ok [pyStrip (nextIvlStr card 1), pyStrip (nextIvlStr card 2),
            pyStrip (nextIvlStr card 3), pyStrip (nextIvlStr card 4)], h1) ∧
    [pyStrip (nextIvlStr card 1), pyStrip (nextIvlStr card 2),
     pyStrip (nextIvlStr card 3), pyStrip (nextIvlStr card 4)].length = 4 ∧
    ∀ s ∈ [pyStrip (nextIvlStr card 1), pyStrip (nextIvlStr card 2),
           pyStrip (nextIvlStr card 3), pyStrip (nextIvlStr card 4)],
      s ≠ "" := by
  refine ⟨_, rfl, rfl, ?_⟩
  intro s hs
  rcases List.mem_cons.mp hs with rfl | hs
  · exact nextIvlStr_strip_ne_empty card 1
  rcases List.mem_cons.mp hs with rfl | hs
  · exact nextIvlStr_strip_ne_empty card 2
  rcases List.mem_cons.mp hs with rfl | hs
  · exact nextIvlStr_strip_ne_empty card 3
  rcases List.mem_cons.mp hs with rfl | hs
  · exact nextIvlStr_strip_ne_empty card 4
  cases hs

/-- C7 witness: concrete interval preview strings for the sample card. -/
theorem get_next_time_buttons_spec_witness :
    ∃ h1, get_next_time_buttons demoColl2 [] demoCard =
      (.ok [pyStrip (nextIvlStr demoCard 1), pyStrip (nextIvlStr demoCard 2),
            pyStrip (nextIvlStr demoCard 3), pyStrip (nextIvlStr demoCard 4)],
       h1) ∧
    [pyStrip (nextIvlStr demoCard 1), pyStrip (nextIvlStr demoCard 2),
     pyStrip (nextIvlStr demoCard 3),
     pyStrip (nextIvlStr demoCard 4)].length = 4 ∧
    ∀ s ∈ [pyStrip (nextIvlStr demoCard 1), pyStrip (nextIvlStr demoCard 2),
           pyStrip (nextIvlStr demoCard 3), pyStrip (nextIvlStr demoCard 4)],
      s ≠ "" :=
  get_next_time_buttons_spec demoColl2 demoCard

/-- C8: get queue counts() projects the backend counts in the order (new,
review, learning), and a freshly seeded collection with N new cards and no
reviews yields (N, 0, 0). -/
theorem get_queues_count_spec (c : Coll) (N : Nat)
    (hnew : ∀ card ∈ c.cards, card.queue = CardQueue.newQ)
    (hN : c.cards.length = N) :
    ∃ h1, get_queues_count c [] =
      (.ok ((getQueuedCards c).new_count, (getQueuedCards c).review_count,
            (getQueuedCards c).learning_count), h1) ∧
      (getQueuedCards c).new_count = N ∧
      (getQueuedCards c).review_count = 0 ∧
      (getQueuedCards c).learning_count = 0 := by
  refine ⟨_, rfl, ?_, ?_, ?_⟩
  · simp only [getQueuedCards]
    rw [List.filter_eq_self.mpr]
    · exact hN
    · intro a ha; simp [hnew a ha]
  · simp only [getQueuedCards]
    rw [List.filter_eq_nil_iff.mpr]
    · rfl
    · intro a ha; simp [hnew a ha]
  · simp only [getQueuedCards]
    rw [List.filter_eq_nil_iff.mpr]
    · rfl
    · intro a ha; simp [hnew a ha]

/-- C8 witness: the sample seeded collection with one new card yields
(1, 0, 0). -/
theorem get_queues_count_spec_witness :
    ∃ h1, get_queues_count demoColl2 [] =
      (.ok ((getQueuedCards demoColl2).new_count,
            (getQueuedCards demoColl2).review_count,
            (getQueuedCards demoColl2).learning_count), h1) ∧
      (getQueuedCards demoColl2).new_count = 1 ∧
      (getQueuedCards demoColl2).review_count = 0 ∧
      (getQueuedCards demoColl2).learning_count = 0 :=
  get_queues_count_spec demoColl2 1 (by decide) (by decide)

/-- C9: find cards always returns a list of card ids and never None, for
every query, even though the declared return type admits None; any result
that is returned (rather than raised) is a some. -/
theorem find_cards_never_none (c : Coll) (query : String) :
    (∃ l h1, find_cards c [] query = (.ok (some l), h1) ∧
       ∀ x ∈ l, x ∈ c.cards.map CardRec.id) ∧
    (∀ faults v h1, find_cards c faults query = (.ok v, h1) →
       v.isSome = true) := by
  constructor
  · refine ⟨searchCards c query, _, rfl, ?_⟩
    intro x hx
    unfold searchCards at hx
    by_cases hq : query = ""
    · rw [if_pos hq] at hx; exact hx
    · rw [if_neg hq] at hx
      rw [List.mem_map] at hx ⊢
      obtain ⟨card, hcf, rfl⟩ := hx
      exact ⟨card, List.mem_of_mem_filter hcf, rfl⟩
  · intro faults v h1 heq
    match faults with
    | [] =>
        have hfst := (Prod.ext_iff.mp heq).1
        injection hfst with h2
        rw [← h2]; rfl
    | true :: rest =>
        exact PyResult.noConfusion (Prod.ext_iff.mp heq).1
    | false :: rest =>
        have hfst := (Prod.ext_iff.mp heq).1
        injection hfst with h2
        rw [← h2]; rfl

/-- C9 witness: the empty query on the sample seeded collection returns a
list, not None. -/
theorem find_cards_never_none_witness :
    (∃ l h1, find_cards demoColl2 [] "" = (.ok (some l), h1) ∧
       ∀ x ∈ l, x ∈ demoColl2.cards.map CardRec.id) ∧
    (∀ faults v h1, find_cards demoColl2 faults "" = (.ok v, h1) →
       v.isSome = true) :=
  find_cards_never_none demoColl2 ""

/-- C3: add card(D, model, F, B) returns the id C of the first card
generated from the new note, that note has fields [F, B] in order, and a
subsequent find cards with the empty query includes C. -/
theorem add_card_spec (c : Coll) (h : c.wf) (deck_id : Nat)
    (model : NotetypeRec) (hmodel : model ∈ c.notetypes)
    (htc : 0 < model.templateCount)
    (_hdeck : deck_id ∈ c.decks.map DeckRec.id)
    (F B : String) :
    ∃ C h1, add_card c [] deck_id model F B = (.ok C, h1) ∧
      (∃ note ∈ h1.coll.notes, note.fields = [F, B] ∧
        ((noteCards h1.coll note.id).head?).map CardRec.id = some C ∧
        ∃ card ∈ h1.coll.cards, card.id = C ∧ card.nid = note.id) ∧
      (∃ l h2, find_cards h1.coll [] "" = (.ok (some l), h2) ∧ C ∈ l) := by
  have hmg : modelsGet { c with nextId := c.nextId + 1 } model.id =
      some model := by
    show c.notetypes.find? (fun x => x.id = model.id) = some model
    exact find?_key_eq_of_mem_distinct NotetypeRec.id h.2.2.2.2.2.2.1 hmodel
  obtain ⟨k, hk⟩ : ∃ k, model.templateCount = Nat.succ k :=
    ⟨model.templateCount - 1, by omega⟩
  have hcardsnid : ∀ card ∈ c.cards, card.nid ≠ c.nextId := by
    intro card hc heq
    obtain ⟨n, hn, hnid⟩ := h.2.2.2.2.2.2.2.2.2 card hc
    have := h.2.2.2.1 n hn
    omega
  have hnc : noteCards (collAfterAdd c deck_id model F B) c.nextId =
      newCardsOf c deck_id model.templateCount := by
    show ((c.cards ++ newCardsOf c deck_id model.templateCount).filter _) = _
    rw [List.filter_append]
    have hold : c.cards.filter (fun card => decide (card.nid = c.nextId)) =
        [] := by
      rw [List.filter_eq_nil_iff]
      intro a ha
      simp [hcardsnid a ha]
    have hkeep : (newCardsOf c deck_id model.templateCount).filter
        (fun card => decide (card.nid = c.nextId)) =
        newCardsOf c deck_id model.templateCount := by
      rw [List.filter_eq_self]
      intro a ha
      rw [newCardsOf, List.mem_map] at ha
      obtain ⟨ord, -, rfl⟩ := ha
      simp
    rw [hold, hkeep, List.nil_append]
  have hhead : (newCardsOf c deck_id model.templateCount).head? =
      some { id := c.nextId + 1, nid := c.nextId, did := deck_id, ord := 0,
             queue := CardQueue.newQ } := by
    rw [newCardsOf, hk, List.range_succ_eq_map]
    rfl
  have hFCmem : ({ id := c.nextId + 1, nid := c.nextId, did := deck_id,
                   ord := 0, queue := CardQueue.newQ } : CardRec) ∈
      newCardsOf c deck_id model.templateCount := by
    rw [newCardsOf, hk, List.range_succ_eq_map, List.map_cons]
    exact List.mem_cons_self _ _
  refine ⟨c.nextId + 1,
    { coll := collAfterAdd c deck_id model F B, faults := [],
      isOpen := false }, ?_, ?_, ?_⟩
  · have hnc2 := hnc
    have hhead2 := hhead
    simp only [collAfterAdd, newCardsOf] at hnc2 hhead2
    simp only [add_card, withCollection, bindM, libCall, pureM, raiseM,
      newNote, addNote, afterNoteUpdates, hmg, Option.map_some',
      Option.getD_some, collAfterAdd, newCardsOf, hnc2, hhead2]
  · refine ⟨{ id := c.nextId, mid := model.id, fields := [F, B] },
      List.mem_append_right _ (List.mem_singleton.mpr rfl), rfl, ?_, ?_⟩
    · show (noteCards (collAfterAdd c deck_id model F B) c.nextId).head?.map
        CardRec.id = _
      rw [hnc, hhead]
      rfl
    · exact ⟨{ id := c.nextId + 1, nid := c.nextId, did := deck_id, ord := 0,
               queue := CardQueue.newQ },
        List.mem_append_right _ hFCmem, rfl, rfl⟩
  · refine ⟨_, _, rfl, ?_⟩
    show c.nextId + 1 ∈ (collAfterAdd c deck_id model F B).cards.map
      CardRec.id
    rw [List.mem_map]
    exact ⟨{ id := c.nextId + 1, nid := c.nextId, did := deck_id, ord := 0,
             queue := CardQueue.newQ },
      List.mem_append_right _ hFCmem, rfl⟩

/-- C3 witness: adding a card with fields F and B to the default deck of
the sample fresh collection under the Basic type. -/
theorem add_card_spec_witness :
    ∃ C h1, add_card demoColl [] 1 demoNotetype "F" "B" = (.ok C, h1) ∧
      (∃ note ∈ h1.coll.notes, note.fields = ["F", "B"] ∧
        ((noteCards h1.coll note.id).head?).map CardRec.id = some C ∧
        ∃ card ∈ h1.coll.cards, card.id = C ∧ card.nid = note.id) ∧
      (∃ l h2, find_cards h1.coll [] "" = (.ok (some l), h2) ∧ C ∈ l) :=
  add_card_spec demoColl (by decide) 1 demoNotetype (by decide) (by decide)
    (by decide) "F" "B"

end AnkiBot
